import Mathlib

/-!
Shallow embedding of the affinity-aware shard-to-bot assignment planner, the
trigger-argument dialect converter, the result aggregator, and the finch
smoke-test harness's output document construction, together with theorems
checking the specification's claims about them.

The planner and dispatcher implementation files
(`trigger_scripts/perf_device_trigger.py`, `trigger_scripts/base_test_triggerer.py`)
are not present in the source tree; only their unit tests are.  Those parts are
therefore modelled from the specification (and cross-checked against the unit
tests' concrete expectations).  The harness
(`scripts/run_finch_smoke_tests_android.py`) is present and is embedded from
the source.
-/

/-- Modelled from the spec: the bot status record returned by the task-queue
service's fleet query (spec section 6: records of shape
bot_id, is_dead, quarantined); the implementing file
`trigger_scripts/perf_device_trigger.py` is missing from the tree. -/
structure BotRecord where
  bot_id : String
  is_dead : Bool
  quarantined : Bool
  deriving DecidableEq

/-- Modelled from the spec: eligibility of a bot (spec section 3,
"Eligible iff alive and not quarantined"). -/
def isEligible (b : BotRecord) : Bool :=
  !b.is_dead && !b.quarantined

/-- Modelled from the spec: identifiers of the eligible bots, in fleet-query
order (spec section 4.2 step 1, the initial alive pool). -/
def eligibleIds (bots : List BotRecord) : List String :=
  (bots.filter (fun b => isEligible b)).map BotRecord.bot_id

/-- Modelled from the spec: identifiers of the non-eligible (dead or
quarantined) bots, in fleet-query order; these are the bots recycled under
scarcity (spec section 4.2 step 4). -/
def ineligibleIds (bots : List BotRecord) : List String :=
  (bots.filter (fun b => !isEligible b)).map BotRecord.bot_id

/-- Modelled from the spec: the planner's fatal error taxonomy entry
`InsufficientCapacityError` (spec section 7). -/
inductive PlannerError where
  | insufficientCapacity (msg : String)
  deriving DecidableEq

/-- Modelled from the spec: the message the planner fails with when the fleet
query returned no machines (spec section 7 requires the message to state that
not enough machines exist in the pool; the unit test
`test_no_bot_returned` checks this exact phrase). -/
def capacityMsg : String :=
  "Not enough available machines exist in swarming pool"

/-- Modelled from the spec: the affinity pass of the static planner
(spec section 4.2 step 2).  Shards are processed in increasing index order;
a shard whose previous bot is non-empty and still in the working pool claims
it (first claimant wins, the bot is removed from the pool); every other shard
is marked unresolved (`none`).  Returns the per-shard outcomes together with
the remaining pool. -/
def affinityPass (prev : Nat → String) :
    List Nat → List String → List (Nat × Option String) × List String
  | [], pool => ([], pool)
  | i :: rest, pool =>
    if prev i ≠ "" ∧ prev i ∈ pool then
      let r := affinityPass prev rest (pool.erase (prev i))
      ((i, some (prev i)) :: r.1, r.2)
    else
      let r := affinityPass prev rest pool
      ((i, none) :: r.1, r.2)

/-- Modelled from the spec: the redistribution and scarcity passes of the
static planner (spec section 4.2 steps 3-4).  Unresolved shards, in increasing
index order, pop the next available bot from the remaining alive pool; once
the alive pool is exhausted, a shard with a non-empty previous assignment
falls back to that original value (consuming it from the leftover
non-eligible pool if recorded there), and a never-run shard (previous value
the empty string) receives a recycled leftover non-eligible bot. -/
def resolvePass (prev : Nat → String) :
    List (Nat × Option String) → List String → List String → List (Nat × String)
  | [], _, _ => []
  | (i, some b) :: rest, pool, dead => (i, b) :: resolvePass prev rest pool dead
  | (i, none) :: rest, b :: pool, dead => (i, b) :: resolvePass prev rest pool dead
  | (i, none) :: rest, [], dead =>
    if prev i ≠ "" then
      (i, prev i) :: resolvePass prev rest [] (dead.erase (prev i))
    else
      match dead with
      | d :: dead2 => (i, d) :: resolvePass prev rest [] dead2
      | [] => (i, "") :: resolvePass prev rest [] []

/-- Modelled from the spec: the static-mode shard assignment planner
(spec section 4.2).  Fails with `InsufficientCapacityError` exactly when the
fleet query returned zero bots at all (spec section 4.2 step 5); otherwise
runs the affinity pass over the eligible pool and then the
redistribution/scarcity pass. -/
def planStatic (bots : List BotRecord) (shards : Nat) (prev : Nat → String) :
    Except PlannerError (List (Nat × String)) :=
  match bots with
  | [] => Except.error (PlannerError.insufficientCapacity capacityMsg)
  | _ :: _ =>
    let r := affinityPass prev (List.range shards) (eligibleIds bots)
    Except.ok (resolvePass prev r.1 r.2 (ineligibleIds bots))

/-- Modelled from the spec: the dynamic-mode planner (spec section 4.2,
dynamic mode).  The shard count becomes the number of eligible bots and shard
`i` is assigned the `i`-th eligible bot in fleet-query order; any supplied
previous-assignment map is ignored.  Fails with `InsufficientCapacityError`
when the eligible set is empty. -/
def planDynamic (bots : List BotRecord) (_prevIgnored : Nat → String) :
    Except PlannerError (List (Nat × String)) :=
  let pool := eligibleIds bots
  if pool.isEmpty then
    Except.error (PlannerError.insufficientCapacity capacityMsg)
  else
    Except.ok ((List.range pool.length).zip pool)

/-- Look up the bot assigned to shard `i` in a planner output. -/
def lookupShard : List (Nat × String) → Nat → Option String
  | [], _ => none
  | (j, b) :: rest, i => if j = i then some b else lookupShard rest i

/-- The eligible pool left over after the affinity pass has processed all
shards of index lower than `i`: the previous bot of shard `i` is in this list
exactly when it is eligible and has not been claimed by a lower-indexed
shard. -/
def remainingPoolAfter (bots : List BotRecord) (prev : Nat → String) (i : Nat) :
    List String :=
  (affinityPass prev (List.range i) (eligibleIds bots)).2

/-! Concrete fleet snapshots and previous-assignment maps taken from the unit
tests of `perf_device_trigger.py` (the test generator lists alive bots first,
then alternates dead and quarantined for the dead list). -/

/-- Fleet of `test_all_healthy_shards` and `test_previously_healthy_now_dead`:
build3..build5 alive, build1 dead, build2 quarantined. -/
def botsHealthy : List BotRecord :=
  [⟨"build3", false, false⟩, ⟨"build4", false, false⟩, ⟨"build5", false, false⟩,
   ⟨"build1", true, false⟩, ⟨"build2", false, true⟩]

/-- Previous map of `test_all_healthy_shards`. -/
def prevHealthy : Nat → String
  | 0 => "build3"
  | 1 => "build4"
  | 2 => "build5"
  | _ => ""

/-- Fleet of the two scarcity tests (same snapshot as `botsHealthy`). -/
def botsScarcity : List BotRecord :=
  botsHealthy

/-- Previous map of `test_not_enough_healthy_bots`. -/
def prevNotEnough : Nat → String
  | 0 => "build1"
  | 1 => "build2"
  | 2 => "build3"
  | 3 => "build4"
  | 4 => "build5"
  | _ => ""

/-- Previous map of `test_not_enough_healthy_bots_shard_not_seen`
(shard 1 never ran). -/
def prevShardNotSeen : Nat → String
  | 0 => "build1"
  | 1 => ""
  | 2 => "build3"
  | 3 => "build4"
  | 4 => "build5"
  | _ => ""

/-- Fleet of `test_previously_duplicate_task_assignments`:
build3, build4, build5, build7 alive; build1 dead; build6 quarantined. -/
def botsDup : List BotRecord :=
  [⟨"build3", false, false⟩, ⟨"build4", false, false⟩, ⟨"build5", false, false⟩,
   ⟨"build7", false, false⟩, ⟨"build1", true, false⟩, ⟨"build6", false, true⟩]

/-- Previous map of `test_previously_duplicate_task_assignments`
(shards 0 and 1 both recorded on build3, shard 3 on the quarantined
build6). -/
def prevDup : Nat → String
  | 0 => "build3"
  | 1 => "build3"
  | 2 => "build5"
  | 3 => "build6"
  | _ => ""

/-- Fleet of `test_dynamic_sharding`: build1..build5 all alive. -/
def botsDynamic : List BotRecord :=
  [⟨"build1", false, false⟩, ⟨"build2", false, false⟩, ⟨"build3", false, false⟩,
   ⟨"build4", false, false⟩, ⟨"build5", false, false⟩]

/-- Garbage previous map supplied in the dynamic-sharding tests; dynamic mode
must ignore it. -/
def prevGarbage : Nat → String
  | 0 => "build301"
  | 1 => "build1--"
  | 2 => "build-blah"
  | _ => ""

/-! Trigger-argument dialect conversion and the result aggregator.  The
implementing file `trigger_scripts/base_test_triggerer.py` is missing from
the tree; these are modelled from the specification (section 4.3, 4.4, 7)
and cross-checked against its unit test. -/

/-- Modelled from the spec: the dispatcher's fatal error
`MalformedArgumentsError`, raised when a dimension flag misses its key or
value during dialect translation (spec section 7). -/
inductive MalformedArgumentsError where
  | malformedDimension
  deriving DecidableEq

/-- Modelled from the spec: renaming of the legacy server flag during
dialect conversion (the unit test converts a leading legacy server flag to
the consolidated one, all other flags pass through verbatim). -/
def goName (s : String) : String :=
  if s = "--swarming" then "--server" else s

/-- Modelled from the spec: conversion of a legacy trigger-argument list to
the consolidated dialect (spec section 4.3): every dimension flag followed by
two positional values becomes a single key=value pair, every other argument
passes through (the server flag renamed), order preserved; a dimension flag
not followed by exactly two positional values is a fatal
`MalformedArgumentsError`. -/
def convertToGoSwarmingArgs : List String →
    Except MalformedArgumentsError (List String)
  | [] => Except.ok []
  | a :: rest =>
    if goName a = "--dimension" then
      match rest with
      | k :: v :: rest2 =>
        match convertToGoSwarmingArgs rest2 with
        | Except.ok t => Except.ok ("--dimension" :: (k ++ "=" ++ v) :: t)
        | Except.error e => Except.error e
      | _ => Except.error MalformedArgumentsError.malformedDimension
    else
      match convertToGoSwarmingArgs rest with
      | Except.ok t => Except.ok (goName a :: t)
      | Except.error e => Except.error e

/-- A token-level view of a legacy trigger-argument list: either a dimension
flag with its key and value, or any other single argument. -/
inductive SwarmingTok where
  | dim (k v : String)
  | plain (s : String)
  deriving DecidableEq

/-- Render a token list in the legacy dialect (dimension flags as three
separate arguments). -/
def flattenLegacy : List SwarmingTok → List String
  | [] => []
  | SwarmingTok.dim k v :: rest => "--dimension" :: k :: v :: flattenLegacy rest
  | SwarmingTok.plain s :: rest => s :: flattenLegacy rest

/-- Render a token list in the consolidated dialect (dimension flags as
key=value, the server flag renamed). -/
def flattenGo : List SwarmingTok → List String
  | [] => []
  | SwarmingTok.dim k v :: rest => "--dimension" :: (k ++ "=" ++ v) :: flattenGo rest
  | SwarmingTok.plain s :: rest => goName s :: flattenGo rest

/-- A non-dimension token does not itself spell the dimension flag. -/
def tokOk : SwarmingTok → Bool
  | SwarmingTok.dim _ _ => true
  | SwarmingTok.plain s => s != "--dimension"

/-- The legacy argument list of the unit test
`test_convert_to_go_swarming_args`, as tokens. -/
def exampleToks : List SwarmingTok :=
  [SwarmingTok.plain "--swarming", SwarmingTok.plain "x.apphost.com",
   SwarmingTok.dim "pool" "ci", SwarmingTok.dim "os" "linux",
   SwarmingTok.plain "-env", SwarmingTok.plain "FOO=foo",
   SwarmingTok.plain "--hello", SwarmingTok.plain "-cipd-package",
   SwarmingTok.plain "path:name=123", SwarmingTok.plain "--scalar",
   SwarmingTok.plain "42", SwarmingTok.plain "--enable-resultdb"]

/-- Modelled from the spec: the nested result-store metadata of a trigger
response in the consolidated dialect (spec section 4.3/6:
tasks[].task_result.resultdb_info.invocation). -/
structure ResultDBInfo where
  invocation : String
  deriving DecidableEq

/-- Modelled from the spec: the per-task result metadata of a trigger
response; absent in the legacy dialect. -/
structure TaskResultInfo where
  resultdb_info : Option ResultDBInfo
  deriving DecidableEq

/-- Modelled from the spec: the request part of a trigger-response task,
carrying the task id. -/
structure TaskRequest where
  task_id : String
  deriving DecidableEq

/-- Modelled from the spec: one task entry of a trigger response. -/
structure TaskEntry where
  request : TaskRequest
  task_result : Option TaskResultInfo
  deriving DecidableEq

/-- Modelled from the spec: a trigger response, a list of task entries. -/
structure TriggerResponse where
  tasks : List TaskEntry
  deriving DecidableEq

/-- Modelled from the spec: a report entry
(shard_index, task_id, optional invocation; spec section 3). -/
structure ReportEntry where
  shard_index : Nat
  task_id : String
  invocation : Option String
  deriving DecidableEq

/-- First-match lookup in a string-keyed association list (a Python dict in
insertion order). -/
def getKey {α : Type} : List (String × α) → String → Option α
  | [], _ => none
  | (k, v) :: rest, q => if k = q then some v else getKey rest q

/-- Overwrite-or-append update of a string-keyed association list (Python
dict assignment: an existing key keeps its position, a new key is appended). -/
def setKey {α : Type} : List (String × α) → String → α → List (String × α)
  | [], q, v => [(q, v)]
  | (k, w) :: rest, q, v =>
    if k = q then (q, v) :: rest else (k, w) :: setKey rest q v

/-- Modelled from the spec: the composite report key
task_id:shard_index:shard_count (spec section 3/4.4). -/
def compositeKey (taskId : String) (shardIndex shardCount : Nat) : String :=
  taskId ++ ":" ++ Nat.repr shardIndex ++ ":" ++ Nat.repr shardCount

/-- The invocation id extracted from one task entry's nested result metadata
(consolidated dialect), when present. -/
def extractInvocation (t : TaskEntry) : Option String :=
  match t.task_result with
  | some tr => tr.resultdb_info.map ResultDBInfo.invocation
  | none => none

/-- Modelled from the spec: merging one shard's trigger response into the
report (spec section 4.4): the first task entry's id and invocation are
stored under the composite key; an empty response leaves the report
unchanged. -/
def mergeTriggerResult (report : List (String × ReportEntry))
    (shardIndex shardCount : Nat) (resp : TriggerResponse) :
    List (String × ReportEntry) :=
  match resp.tasks with
  | [] => report
  | t :: _ =>
    setKey report (compositeKey t.request.task_id shardIndex shardCount)
      ⟨shardIndex, t.request.task_id, extractInvocation t⟩

/-- The trigger response of the `test_trigger_tasks` unit test: one task with
id f0 and invocation task-f0. -/
def respF0 : TriggerResponse :=
  ⟨[⟨⟨"f0"⟩, some ⟨some ⟨"task-f0"⟩⟩⟩]⟩

/-! The finch smoke-test harness's output document, embedded from
`scripts/run_finch_smoke_tests_android.py` (`FinchTestCase.run_tests` and
`main`). -/

/-- A JSON-like value as the harness manipulates it: numbers, strings,
booleans, and insertion-ordered objects. -/
inductive JVal where
  | num (n : Nat)
  | str (s : String)
  | boolean (b : Bool)
  | obj (fields : List (String × JVal))

/-- The part of one wpt run's output document that `run_tests` reads back:
its tests object and its per-type failure counts. -/
structure RunOutput where
  tests : JVal
  num_failures_by_type : List (String × Nat)

/-- The numeric value stored under a key of a failure-count object,
defaulting to zero (the `setdefault(result, 0)` read). -/
def getCountD (m : List (String × JVal)) (k : String) : Nat :=
  match getKey m k with
  | some (JVal.num n) => n
  | _ => 0

/-- One step of the failure-count accumulation loop of `run_tests`:
`results_dict['num_failures_by_type'].setdefault(result, 0)` followed by
`+= count`. -/
def addCount (m : List (String × JVal)) (k : String) (c : Nat) :
    List (String × JVal) :=
  setKey m k (JVal.num (getCountD m k + c))

/-- `FinchTestCase.run_tests`' mutation of the shared results dict: store the
current run's tests under the variation key inside the tests object, then
fold the current run's failure counts into the shared failure-count
object. -/
def runTestsModel (variation : String) (curr : RunOutput)
    (d : List (String × JVal)) : List (String × JVal) :=
  let tests0 := match getKey d "tests" with
    | some (JVal.obj t) => t
    | _ => []
  let d1 := setKey d "tests" (JVal.obj (setKey tests0 variation curr.tests))
  let nf0 := match getKey d1 "num_failures_by_type" with
    | some (JVal.obj m) => m
    | _ => []
  let nf1 := curr.num_failures_by_type.foldl
    (fun acc p => addCount acc p.1 p.2) nf0
  setKey d1 "num_failures_by_type" (JVal.obj nf1)

/-- The initial results dict built in `main`:
OrderedDict of version 3, interrupted false, empty failure counts, empty
tests. -/
def initResultsDict : List (String × JVal) :=
  [("version", JVal.num 3), ("interrupted", JVal.boolean false),
   ("num_failures_by_type", JVal.obj []), ("tests", JVal.obj [])]

/-- `main`'s construction of the final results document: run the suite
without the finch seed, then with it, then record the wall-clock time and the
path delimiter. -/
def mainResultsDict (run1 run2 : RunOutput) (now : Nat) :
    List (String × JVal) :=
  let d1 := runTestsModel "without_finch_seed" run1 initResultsDict
  let d2 := runTestsModel "with_finch_seed" run2 d1
  let d3 := setKey d2 "seconds_since_epoch" (JVal.num now)
  setKey d3 "path_delimiter" (JVal.str "/")

/-- The failure-count object of the final document: the second run's counts
folded onto the first run's counts. -/
def finalFailureCounts (run1 run2 : RunOutput) : List (String × JVal) :=
  run2.num_failures_by_type.foldl (fun acc p => addCount acc p.1 p.2)
    (run1.num_failures_by_type.foldl (fun acc p => addCount acc p.1 p.2) [])

/-- A sample first-run output (two failures of type FAIL, one PASS). -/
def runOut1 : RunOutput :=
  ⟨JVal.obj [], [("FAIL", 2), ("PASS", 1)]⟩

/-- A sample second-run output (three more failures of type FAIL). -/
def runOut2 : RunOutput :=
  ⟨JVal.obj [], [("FAIL", 3)]⟩

/-! Helper lemmas about the planner passes. -/

lemma affinityPass_append (prev : Nat → String) (l₁ l₂ : List Nat)
    (pool : List String) :
    affinityPass prev (l₁ ++ l₂) pool =
      ((affinityPass prev l₁ pool).1 ++
        (affinityPass prev l₂ (affinityPass prev l₁ pool).2).1,
       (affinityPass prev l₂ (affinityPass prev l₁ pool).2).2) := by
  induction l₁ generalizing pool with
  | nil => simp [affinityPass]
  | cons i rest ih =>
    by_cases h : prev i ≠ "" ∧ prev i ∈ pool
    · simp [affinityPass, h, ih]
    · simp [affinityPass, h, ih]

lemma affinityPass_pool_subset (prev : Nat → String) (l : List Nat)
    (pool : List String) :
    (affinityPass prev l pool).2 ⊆ pool := by
  induction l generalizing pool with
  | nil => simp [affinityPass]
  | cons i rest ih =>
    by_cases h : prev i ≠ "" ∧ prev i ∈ pool
    · simp only [affinityPass, if_pos h]
      exact (ih (pool.erase (prev i))).trans (List.erase_subset _ _)
    · simp only [affinityPass, if_neg h]
      exact ih pool

lemma mem_affinityPass_pool (prev : Nat → String) (l : List Nat)
    (pool : List String) (x : String) (hx : x ∈ pool)
    (h : ∀ j ∈ l, prev j ≠ x) :
    x ∈ (affinityPass prev l pool).2 := by
  induction l generalizing pool with
  | nil => simpa [affinityPass] using hx
  | cons i rest ih =>
    by_cases hc : prev i ≠ "" ∧ prev i ∈ pool
    · simp only [affinityPass, if_pos hc]
      refine ih (pool.erase (prev i)) ?_ ?_
      · exact (List.mem_erase_of_ne
          (fun he => (h i (List.mem_cons_self i rest)) he.symm)).mpr hx
      · exact fun j hj => h j (List.mem_cons_of_mem i hj)
    · simp only [affinityPass, if_neg hc]
      exact ih pool hx (fun j hj => h j (List.mem_cons_of_mem i hj))

lemma affinityPass_map_fst (prev : Nat → String) (l : List Nat)
    (pool : List String) :
    ((affinityPass prev l pool).1).map Prod.fst = l := by
  induction l generalizing pool with
  | nil => simp [affinityPass]
  | cons i rest ih =>
    by_cases h : prev i ≠ "" ∧ prev i ∈ pool
    · simp [affinityPass, h, ih]
    · simp [affinityPass, h, ih]

lemma resolvePass_keeps (prev : Nat → String)
    (l : List (Nat × Option String)) (pool dead : List String)
    (i : Nat) (b : String) (h : (i, some b) ∈ l) :
    (i, b) ∈ resolvePass prev l pool dead := by
  induction l generalizing pool dead with
  | nil => cases h
  | cons hd rest ih =>
    obtain ⟨j, c⟩ := hd
    cases c with
    | some c =>
      rcases List.mem_cons.mp h with heq | hmem
      · obtain ⟨hi, hb⟩ : i = j ∧ b = c := by simpa using heq
        subst hi
        subst hb
        exact List.mem_cons_self _ _
      · exact List.mem_cons_of_mem _ (ih pool dead hmem)
    | none =>
      have hmem : (i, some b) ∈ rest := by
        rcases List.mem_cons.mp h with heq | hmem
        · exact absurd heq (by simp)
        · exact hmem
      cases pool with
      | cons p pool2 =>
        exact List.mem_cons_of_mem _ (ih pool2 dead hmem)
      | nil =>
        by_cases hj : prev j ≠ ""
        · simp only [resolvePass, if_pos hj]
          exact List.mem_cons_of_mem _ (ih [] (dead.erase (prev j)) hmem)
        · simp only [resolvePass, if_neg hj]
          cases dead with
          | nil => exact List.mem_cons_of_mem _ (ih [] [] hmem)
          | cons d dead2 => exact List.mem_cons_of_mem _ (ih [] dead2 hmem)

lemma resolvePass_map_fst (prev : Nat → String)
    (l : List (Nat × Option String)) (pool dead : List String) :
    (resolvePass prev l pool dead).map Prod.fst = l.map Prod.fst := by
  induction l generalizing pool dead with
  | nil => simp [resolvePass]
  | cons hd rest ih =>
    obtain ⟨j, c⟩ := hd
    cases c with
    | some c => simp [resolvePass, ih]
    | none =>
      cases pool with
      | cons p pool2 => simp [resolvePass, ih]
      | nil =>
        by_cases hj : prev j ≠ ""
        · simp [resolvePass, if_pos hj, ih]
        · simp only [resolvePass, if_neg hj]
          cases dead with
          | nil => simp [ih]
          | cons d dead2 => simp [ih]

lemma lookupShard_of_mem (a : List (Nat × String)) (i : Nat) (b : String)
    (hnd : (a.map Prod.fst).Nodup) (h : (i, b) ∈ a) :
    lookupShard a i = some b := by
  induction a with
  | nil => cases h
  | cons hd rest ih =>
    obtain ⟨j, c⟩ := hd
    by_cases hji : j = i
    · subst hji
      have hb : b = c := by
        rcases List.mem_cons.mp h with heq | hmem
        · have hp : j = j ∧ b = c := by simpa using heq
          exact hp.2
        · exfalso
          have : j ∈ rest.map Prod.fst :=
            List.mem_map.mpr ⟨(j, b), hmem, rfl⟩
          exact (List.nodup_cons.mp hnd).1 this
      simp [lookupShard, hb]
    · have hmem : (i, b) ∈ rest := by
        rcases List.mem_cons.mp h with heq | hmem
        · have hp : i = j ∧ b = c := by simpa using heq
          exact absurd hp.1.symm hji
        · exact hmem
      simp only [lookupShard, if_neg hji]
      exact ih (List.nodup_cons.mp hnd).2 hmem

lemma range_split (i n : Nat) (h : i < n) :
    ∃ l₂, List.range n = List.range i ++ i :: l₂ := by
  induction n with
  | zero => omega
  | succ m ih =>
    rcases Nat.lt_or_ge i m with him | him
    · obtain ⟨l₂, hl₂⟩ := ih him
      exact ⟨l₂ ++ [m], by rw [List.range_succ, hl₂]; simp⟩
    · have : i = m := by omega
      subst this
      exact ⟨[], by rw [List.range_succ]⟩

lemma planStatic_ok (bots : List BotRecord) (shards : Nat)
    (prev : Nat → String) (hb : bots ≠ []) :
    planStatic bots shards prev =
      Except.ok (resolvePass prev
        (affinityPass prev (List.range shards) (eligibleIds bots)).1
        (affinityPass prev (List.range shards) (eligibleIds bots)).2
        (ineligibleIds bots)) := by
  cases bots with
  | nil => exact absurd rfl hb
  | cons x xs => rfl

lemma remainingPoolAfter_subset (bots : List BotRecord) (prev : Nat → String)
    (i : Nat) : remainingPoolAfter bots prev i ⊆ eligibleIds bots :=
  affinityPass_pool_subset prev (List.range i) (eligibleIds bots)

lemma bots_ne_nil_of_mem_eligible (bots : List BotRecord) (x : String)
    (hx : x ∈ eligibleIds bots) : bots ≠ [] := by
  intro hb
  subst hb
  simp [eligibleIds] at hx

/-- C1.  Affinity preservation: in static mode, every shard whose previous
assignment is non-empty, eligible, and not already claimed by a lower-indexed
shard (that is, still in the pool left over after the lower-indexed shards'
affinity pass) is assigned exactly its previous bot; an eligible previous bot
that no lower-indexed shard shares is always still in that pool; and when
every previously assigned bot is eligible and all are distinct, the whole
assignment is unchanged. -/
theorem affinity_preservation (bots : List BotRecord) (shards : Nat)
    (prev : Nat → String) :
    (∀ i, i < shards → prev i ≠ "" → prev i ∈ remainingPoolAfter bots prev i →
      ∃ a, planStatic bots shards prev = Except.ok a ∧
        lookupShard a i = some (prev i))
    ∧ (∀ i, prev i ∈ eligibleIds bots → (∀ j, j < i → prev j ≠ prev i) →
      prev i ∈ remainingPoolAfter bots prev i)
    ∧ (0 < shards →
      (∀ i, i < shards → prev i ≠ "" ∧ prev i ∈ eligibleIds bots) →
      (∀ j, j < shards → ∀ i, i < j → prev i ≠ prev j) →
      ∃ a, planStatic bots shards prev = Except.ok a ∧
        ∀ i, i < shards → lookupShard a i = some (prev i)) := by
  have core : ∀ i, i < shards → prev i ≠ "" →
      prev i ∈ remainingPoolAfter bots prev i →
      ∃ a, planStatic bots shards prev = Except.ok a ∧
        lookupShard a i = some (prev i) := by
    intro i hi hne hpool
    have hb : bots ≠ [] :=
      bots_ne_nil_of_mem_eligible bots (prev i)
        (remainingPoolAfter_subset bots prev i hpool)
    obtain ⟨l₂, hsplit⟩ := range_split i shards hi
    set pool0 := eligibleIds bots with hpool0
    refine ⟨_, planStatic_ok bots shards prev hb, ?_⟩
    have hmem1 :
        (i, some (prev i)) ∈ (affinityPass prev (List.range shards) pool0).1 := by
      rw [hsplit, affinityPass_append]
      have hcond : prev i ≠ "" ∧
          prev i ∈ (affinityPass prev (List.range i) pool0).2 := ⟨hne, hpool⟩
      simp only [affinityPass, if_pos hcond]
      exact List.mem_append_right _ (List.mem_cons_self _ _)
    have hmem2 : (i, prev i) ∈
        resolvePass prev (affinityPass prev (List.range shards) pool0).1
          (affinityPass prev (List.range shards) pool0).2 (ineligibleIds bots) :=
      resolvePass_keeps prev _ _ _ i (prev i) hmem1
    have hnd :
        ((resolvePass prev (affinityPass prev (List.range shards) pool0).1
          (affinityPass prev (List.range shards) pool0).2
          (ineligibleIds bots)).map Prod.fst).Nodup := by
      rw [resolvePass_map_fst, affinityPass_map_fst]
      exact List.nodup_range shards
    exact lookupShard_of_mem _ i (prev i) hnd hmem2
  have unclaimed : ∀ i, prev i ∈ eligibleIds bots →
      (∀ j, j < i → prev j ≠ prev i) →
      prev i ∈ remainingPoolAfter bots prev i := by
    intro i hel hdist
    exact mem_affinityPass_pool prev (List.range i) (eligibleIds bots)
      (prev i) hel (fun j hj => hdist j (List.mem_range.mp hj))
  refine ⟨core, unclaimed, ?_⟩
  intro hpos hall hdist
  have h0 : prev 0 ≠ "" ∧ prev 0 ∈ eligibleIds bots := hall 0 hpos
  have hb : bots ≠ [] := bots_ne_nil_of_mem_eligible bots (prev 0) h0.2
  refine ⟨_, planStatic_ok bots shards prev hb, ?_⟩
  intro i hi
  obtain ⟨hne, hel⟩ := hall i hi
  have hpool : prev i ∈ remainingPoolAfter bots prev i :=
    unclaimed i hel (fun j hj => hdist i hi j hj)
  obtain ⟨a, ha, hla⟩ := core i hi hne hpool
  have : a = resolvePass prev
      (affinityPass prev (List.range shards) (eligibleIds bots)).1
      (affinityPass prev (List.range shards) (eligibleIds bots)).2
      (ineligibleIds bots) := by
    have := (planStatic_ok bots shards prev hb) ▸ ha
    exact (Except.ok.injEq .. ▸ this).symm
  exact this ▸ hla

/-- Witness for C1 at the `test_all_healthy_shards` scenario: all three
previous bots are alive and distinct, so the whole assignment is unchanged. -/
theorem affinity_preservation_witness :
    ∃ a, planStatic botsHealthy 3 prevHealthy = Except.ok a ∧
      ∀ i, i < 3 → lookupShard a i = some (prevHealthy i) :=
  (affinity_preservation botsHealthy 3 prevHealthy).2.2 (by decide)
    (by decide) (by decide)

/-- C2.  Scarcity fallback: once the eligible pool is exhausted, an
unresolved shard with a non-empty previous assignment is assigned exactly
that original (dead/quarantined/absent) bot, and an unresolved never-run
shard (previous value the empty string) receives a recycled leftover
non-eligible bot; concretely, on the `test_not_enough_healthy_bots` and
`test_not_enough_healthy_bots_shard_not_seen` fleets (only build3..build5
alive), shard 0 keeps the dead build1 and the never-run shard 1 receives the
other dead bot build2. -/
theorem scarcity_fallback :
    (∀ (prev : Nat → String) (dead : List String) (i : Nat)
        (rest : List (Nat × Option String)),
      prev i ≠ "" →
      resolvePass prev ((i, none) :: rest) [] dead =
        (i, prev i) :: resolvePass prev rest [] (dead.erase (prev i)))
    ∧ (∀ (prev : Nat → String) (d : String) (dead : List String) (i : Nat)
        (rest : List (Nat × Option String)),
      prev i = "" →
      resolvePass prev ((i, none) :: rest) [] (d :: dead) =
        (i, d) :: resolvePass prev rest [] dead)
    ∧ planStatic botsScarcity 5 prevNotEnough =
        Except.ok [(0, "build1"), (1, "build2"), (2, "build3"),
          (3, "build4"), (4, "build5")]
    ∧ planStatic botsScarcity 5 prevShardNotSeen =
        Except.ok [(0, "build1"), (1, "build2"), (2, "build3"),
          (3, "build4"), (4, "build5")] := by
  refine ⟨?_, ?_, rfl, rfl⟩
  · intro prev dead i rest h
    simp [resolvePass, if_pos h]
  · intro prev d dead i rest h
    simp [resolvePass, h]

/-- Witness for C2: the scarcity rules applied at concrete inputs. -/
theorem scarcity_fallback_witness :
    resolvePass prevNotEnough [(0, none)] [] ["build1", "build2"] =
        [(0, "build1")]
    ∧ resolvePass prevShardNotSeen [(1, none)] [] ["build2"] =
        [(1, "build2")] := by
  constructor
  · rw [scarcity_fallback.1 prevNotEnough ["build1", "build2"] 0 []
      (by decide)]
    rfl
  · rw [scarcity_fallback.2.1 prevShardNotSeen "build2" [] 1 [] (by decide)]
    rfl

/-- C3.  Duplicate previous assignments resolve first-claimant-wins: on the
`test_previously_duplicate_task_assignments` scenario (shards 0 and 1 both
previously recorded on build3, shard 3 on the quarantined build6, with
build3, build4, build5, build7 alive), the lower-indexed shard 0 keeps
build3, shard 1 is redistributed to the fresh eligible bot build4, and the
final assigned bot set is exactly the four distinct bots build3, build4,
build5, build7. -/
theorem duplicate_previous_first_claimant :
    planStatic botsDup 4 prevDup =
      Except.ok [(0, "build3"), (1, "build4"), (2, "build5"), (3, "build7")]
    ∧ (∃ a, planStatic botsDup 4 prevDup = Except.ok a ∧
        lookupShard a 0 = some "build3" ∧
        lookupShard a 1 = some "build4" ∧
        a.map Prod.snd = ["build3", "build4", "build5", "build7"] ∧
        ∀ b : String,
          (b ∈ a.map Prod.snd ↔ b ∈ ["build3", "build4", "build5", "build7"])) := by
  refine ⟨rfl, ⟨_, rfl, rfl, rfl, rfl, fun b => ?_⟩⟩
  exact Iff.rfl

/-- C4.  Dynamic-sharding bijection: in dynamic mode the planner ignores any
supplied previous-assignment map, the shard count equals the number of
eligible bots, and the output pairs the shard indices 0..n-1 with exactly the
eligible-bot identifiers, one distinct bot per shard. -/
theorem dynamic_sharding_bijection (bots : List BotRecord)
    (prev : Nat → String) (hne : eligibleIds bots ≠ [])
    (hnd : (bots.map BotRecord.bot_id).Nodup) :
    ∃ a, planDynamic bots prev = Except.ok a
      ∧ a.length = (eligibleIds bots).length
      ∧ a.map Prod.fst = List.range (eligibleIds bots).length
      ∧ a.map Prod.snd = eligibleIds bots
      ∧ (a.map Prod.snd).Nodup
      ∧ ∀ p2 : Nat → String, planDynamic bots p2 = planDynamic bots prev := by
  have hempty : (eligibleIds bots).isEmpty = false := by
    cases h : eligibleIds bots with
    | nil => exact absurd h hne
    | cons x xs => rfl
  have hlen : (List.range (eligibleIds bots).length).length =
      (eligibleIds bots).length := List.length_range _
  refine ⟨(List.range (eligibleIds bots).length).zip (eligibleIds bots),
    ?_, ?_, ?_, ?_, ?_, fun p2 => rfl⟩
  · simp [planDynamic, hempty]
  · simp [List.length_zip, hlen]
  · exact List.map_fst_zip _ _ (le_of_eq hlen)
  · exact List.map_snd_zip _ _ (le_of_eq hlen.symm)
  · rw [List.map_snd_zip _ _ (le_of_eq hlen.symm)]
    have hsub : List.Sublist (eligibleIds bots) (bots.map BotRecord.bot_id) :=
      (List.filter_sublist bots).map BotRecord.bot_id
    exact hnd.sublist hsub

/-- Witness for C4 at the `test_dynamic_sharding` scenario: five alive bots,
a garbage previous map. -/
theorem dynamic_sharding_bijection_witness :
    ∃ a, planDynamic botsDynamic prevGarbage = Except.ok a
      ∧ a.length = (eligibleIds botsDynamic).length
      ∧ a.map Prod.fst = List.range (eligibleIds botsDynamic).length
      ∧ a.map Prod.snd = eligibleIds botsDynamic
      ∧ (a.map Prod.snd).Nodup
      ∧ ∀ p2 : Nat → String,
          planDynamic botsDynamic p2 = planDynamic botsDynamic prevGarbage :=
  dynamic_sharding_bijection botsDynamic prevGarbage (by decide) (by decide)

/-- C5.  Total-failure error: when the fleet query returned zero bots at all
and planning requires at least one shard, the static planner fails with
`InsufficientCapacityError` whose message states that not enough machines
exist in the swarming pool, and no assignment is emitted; the dynamic planner
fails the same way; and a fleet that is merely exhausted by claims (non-empty
query result) never produces this error. -/
theorem total_failure_insufficient_capacity (shards : Nat)
    (prev : Nat → String) (_hpos : 0 < shards) :
    planStatic [] shards prev =
      Except.error (PlannerError.insufficientCapacity capacityMsg)
    ∧ capacityMsg = "Not enough available machines exist in swarming pool"
    ∧ (∀ a, planStatic [] shards prev ≠ Except.ok a)
    ∧ planDynamic [] prev =
        Except.error (PlannerError.insufficientCapacity capacityMsg)
    ∧ (∀ (bots : List BotRecord) (p : Nat → String), bots ≠ [] →
        ∃ a, planStatic bots shards p = Except.ok a) := by
  refine ⟨rfl, rfl, ?_, rfl, ?_⟩
  · intro a h
    exact Except.noConfusion h
  · intro bots p hb
    exact ⟨_, planStatic_ok bots shards p hb⟩

/-- Witness for C5 at the `test_no_bot_returned` scenario: one shard, empty
fleet. -/
theorem total_failure_insufficient_capacity_witness :
    planStatic [] 1 prevNotEnough =
      Except.error (PlannerError.insufficientCapacity capacityMsg)
    ∧ capacityMsg = "Not enough available machines exist in swarming pool"
    ∧ (∀ a, planStatic [] 1 prevNotEnough ≠ Except.ok a)
    ∧ planDynamic [] prevNotEnough =
        Except.error (PlannerError.insufficientCapacity capacityMsg)
    ∧ (∀ (bots : List BotRecord) (p : Nat → String), bots ≠ [] →
        ∃ a, planStatic bots 1 p = Except.ok a) :=
  total_failure_insufficient_capacity 1 prevNotEnough (by decide)

/-! Helper lemmas about association-list dictionaries. -/

lemma getKey_setKey_self {α : Type} (m : List (String × α)) (k : String)
    (v : α) : getKey (setKey m k v) k = some v := by
  induction m with
  | nil => simp [setKey, getKey]
  | cons hd rest ih =>
    obtain ⟨k0, w⟩ := hd
    by_cases h : k0 = k
    · simp [setKey, getKey, h]
    · simp [setKey, getKey, h, ih]

lemma getKey_setKey_ne {α : Type} (m : List (String × α)) (k q : String)
    (v : α) (h : k ≠ q) : getKey (setKey m k v) q = getKey m q := by
  induction m with
  | nil => simp [setKey, getKey, h]
  | cons hd rest ih =>
    obtain ⟨k0, w⟩ := hd
    by_cases h0 : k0 = k
    · subst h0
      simp [setKey, getKey, h]
    · simp [setKey, getKey, h0, ih]

lemma getKey_eq_none_of_not_mem {α : Type} (m : List (String × α))
    (q : String) (h : q ∉ m.map Prod.fst) : getKey m q = none := by
  induction m with
  | nil => rfl
  | cons hd rest ih =>
    obtain ⟨k0, w⟩ := hd
    simp only [List.map_cons, List.mem_cons] at h
    push_neg at h
    rw [getKey, if_neg (fun he => h.1 he.symm)]
    exact ih h.2

lemma getCountD_addCount_self (m : List (String × JVal)) (k : String)
    (c : Nat) : getCountD (addCount m k c) k = getCountD m k + c := by
  simp [addCount, getCountD, getKey_setKey_self]

lemma getCountD_addCount_ne (m : List (String × JVal)) (k q : String)
    (c : Nat) (h : k ≠ q) : getCountD (addCount m k c) q = getCountD m q := by
  simp [addCount, getCountD, getKey_setKey_ne m k q _ h]

lemma getCountD_foldl (items : List (String × Nat))
    (m0 : List (String × JVal)) (t : String)
    (h : (items.map Prod.fst).Nodup) :
    getCountD (items.foldl (fun acc p => addCount acc p.1 p.2) m0) t =
      getCountD m0 t + (getKey items t).getD 0 := by
  induction items generalizing m0 with
  | nil => simp [getKey]
  | cons hd rest ih =>
    obtain ⟨k, c⟩ := hd
    simp only [List.map_cons, List.nodup_cons] at h
    simp only [List.foldl_cons]
    by_cases hk : k = t
    · subst hk
      rw [ih (addCount m0 k c) h.2, getCountD_addCount_self,
        getKey_eq_none_of_not_mem rest k h.1]
      simp [getKey]
    · rw [ih (addCount m0 k c) h.2, getCountD_addCount_ne m0 k t c hk]
      simp [getKey, hk]

/-- C6.  Report keying: merging a shard's trigger response stores exactly the
entry of shard index, task id, and the invocation extracted from the
response's first task's nested result metadata, under the composite key
task_id:shard_index:shard_count, and that key then resolves to that entry;
concretely, one shard with task id f0 and invocation task-f0 yields a report
containing exactly the key f0:0:1 with that entry. -/
theorem report_composite_keying :
    (∀ (report : List (String × ReportEntry)) (i n : Nat)
        (resp : TriggerResponse) (t : TaskEntry) (rest : List TaskEntry),
      resp.tasks = t :: rest →
      mergeTriggerResult report i n resp =
        setKey report (compositeKey t.request.task_id i n)
          ⟨i, t.request.task_id, extractInvocation t⟩
      ∧ getKey (mergeTriggerResult report i n resp)
          (compositeKey t.request.task_id i n) =
          some ⟨i, t.request.task_id, extractInvocation t⟩)
    ∧ mergeTriggerResult [] 0 1 respF0 =
        [("f0:0:1", ⟨0, "f0", some "task-f0"⟩)] := by
  refine ⟨?_, rfl⟩
  intro report i n resp t rest h
  obtain ⟨tasks⟩ := resp
  simp only at h
  subst h
  exact ⟨rfl, getKey_setKey_self report _ _⟩

/-- Witness for C6 at the `test_trigger_tasks` response. -/
theorem report_composite_keying_witness :
    mergeTriggerResult [] 0 1 respF0 =
      setKey [] (compositeKey "f0" 0 1) ⟨0, "f0", some "task-f0"⟩
    ∧ getKey (mergeTriggerResult [] 0 1 respF0) (compositeKey "f0" 0 1) =
        some ⟨0, "f0", some "task-f0"⟩ :=
  report_composite_keying.1 [] 0 1 respF0 ⟨⟨"f0"⟩, some ⟨some ⟨"task-f0"⟩⟩⟩
    [] rfl

lemma goName_ne_dimension (s : String) (h : s ≠ "--dimension") :
    goName s ≠ "--dimension" := by
  unfold goName
  by_cases hs : s = "--swarming"
  · simp [hs]
  · simpa [hs] using h

lemma convert_cons_dim (k v : String) (rest : List String) :
    convertToGoSwarmingArgs ("--dimension" :: k :: v :: rest) =
      match convertToGoSwarmingArgs rest with
      | Except.ok t => Except.ok ("--dimension" :: (k ++ "=" ++ v) :: t)
      | Except.error e => Except.error e := rfl

lemma convert_cons_plain (s : String) (h : goName s ≠ "--dimension")
    (L : List String) :
    convertToGoSwarmingArgs (s :: L) =
      match convertToGoSwarmingArgs L with
      | Except.ok t => Except.ok (goName s :: t)
      | Except.error e => Except.error e := by
  match L with
  | [] =>
    rw [convertToGoSwarmingArgs.eq_3 s [] (by intro k v r2 hh; cases hh),
      if_neg h]
  | [x] =>
    rw [convertToGoSwarmingArgs.eq_3 s [x] (by intro k v r2 hh; simp at hh),
      if_neg h]
  | x :: y :: L2 =>
    rw [convertToGoSwarmingArgs.eq_2, if_neg h]

lemma convert_dim_last :
    convertToGoSwarmingArgs ["--dimension"] =
      Except.error MalformedArgumentsError.malformedDimension := rfl

lemma convert_dim_only_key (k : String) :
    convertToGoSwarmingArgs ["--dimension", k] =
      Except.error MalformedArgumentsError.malformedDimension := rfl

/-- C7.  Lossless dialect translation: converting any legacy argument list
(an interleaving of dimension triples and other arguments, none of the
latter spelling the dimension flag itself) succeeds and maps every dimension
key/value triple to a single key=value pair, passes every other argument
through (the server flag renamed), and preserves order; in particular the
unit test's list converts exactly as expected. -/
theorem dialect_translation_lossless :
    (∀ toks : List SwarmingTok, (∀ t ∈ toks, tokOk t = true) →
      convertToGoSwarmingArgs (flattenLegacy toks) =
        Except.ok (flattenGo toks))
    ∧ convertToGoSwarmingArgs (flattenLegacy exampleToks) =
        Except.ok ["--server", "x.apphost.com", "--dimension", "pool=ci",
          "--dimension", "os=linux", "-env", "FOO=foo", "--hello",
          "-cipd-package", "path:name=123", "--scalar", "42",
          "--enable-resultdb"] := by
  refine ⟨?_, rfl⟩
  intro toks hok
  induction toks with
  | nil => rfl
  | cons t rest ih =>
    have hrest : ∀ x ∈ rest, tokOk x = true :=
      fun x hx => hok x (List.mem_cons_of_mem t hx)
    cases t with
    | dim k v =>
      simp only [flattenLegacy, flattenGo]
      rw [convert_cons_dim, ih hrest]
    | plain s =>
      have hs : s ≠ "--dimension" := by
        have := hok (SwarmingTok.plain s) (List.mem_cons_self _ _)
        simpa [tokOk] using this
      simp only [flattenLegacy, flattenGo]
      rw [convert_cons_plain s (goName_ne_dimension s hs), ih hrest]

/-- Witness for C7 at the unit test's legacy argument list. -/
theorem dialect_translation_lossless_witness :
    convertToGoSwarmingArgs (flattenLegacy exampleToks) =
      Except.ok (flattenGo exampleToks) :=
  dialect_translation_lossless.1 exampleToks (by decide)

/-- C8.  Malformed dimension flag: whenever a dimension flag reached by the
conversion is followed by fewer than two positional values (it is the last
argument, or only a key follows), dialect conversion fails with
`MalformedArgumentsError`, whatever well-formed arguments precede it; in
particular converting the list of a dimension flag followed only by a key
fails so. -/
theorem malformed_dimension_flag :
    (∀ toks : List SwarmingTok, (∀ t ∈ toks, tokOk t = true) →
      ∀ k : String,
      convertToGoSwarmingArgs (flattenLegacy toks ++ ["--dimension"]) =
        Except.error MalformedArgumentsError.malformedDimension
      ∧ convertToGoSwarmingArgs (flattenLegacy toks ++ ["--dimension", k]) =
        Except.error MalformedArgumentsError.malformedDimension)
    ∧ convertToGoSwarmingArgs ["--dimension", "key"] =
        Except.error MalformedArgumentsError.malformedDimension := by
  refine ⟨?_, rfl⟩
  intro toks hok k
  induction toks with
  | nil => exact ⟨rfl, rfl⟩
  | cons t rest ih =>
    have hrest : ∀ x ∈ rest, tokOk x = true :=
      fun x hx => hok x (List.mem_cons_of_mem t hx)
    obtain ⟨ih1, ih2⟩ := ih hrest
    cases t with
    | dim k0 v0 =>
      constructor
      · simp only [flattenLegacy, List.cons_append]
        rw [convert_cons_dim, ih1]
      · simp only [flattenLegacy, List.cons_append]
        rw [convert_cons_dim, ih2]
    | plain s =>
      have hs : s ≠ "--dimension" := by
        have := hok (SwarmingTok.plain s) (List.mem_cons_self _ _)
        simpa [tokOk] using this
      constructor
      · simp only [flattenLegacy, List.cons_append]
        rw [convert_cons_plain s (goName_ne_dimension s hs), ih1]
      · simp only [flattenLegacy, List.cons_append]
        rw [convert_cons_plain s (goName_ne_dimension s hs), ih2]

/-- Witness for C8 at the unit test's invalid argument list. -/
theorem malformed_dimension_flag_witness :
    convertToGoSwarmingArgs (flattenLegacy [] ++ ["--dimension", "key"]) =
      Except.error MalformedArgumentsError.malformedDimension :=
  (malformed_dimension_flag.1 [] (by decide) "key").2

/-- C9.  Harness output document shape: for every pair of run outputs and
timestamp, the results JSON object written by `main` has exactly the
top-level fields version, interrupted, num_failures_by_type, tests,
seconds_since_epoch, path_delimiter, in insertion order, with version 3 and
path delimiter the slash. -/
theorem harness_output_shape (run1 run2 : RunOutput) (now : Nat) :
    (mainResultsDict run1 run2 now).map Prod.fst =
      ["version", "interrupted", "num_failures_by_type", "tests",
       "seconds_since_epoch", "path_delimiter"]
    ∧ getKey (mainResultsDict run1 run2 now) "version" = some (JVal.num 3)
    ∧ getKey (mainResultsDict run1 run2 now) "interrupted" =
        some (JVal.boolean false)
    ∧ getKey (mainResultsDict run1 run2 now) "path_delimiter" =
        some (JVal.str "/") :=
  ⟨rfl, rfl, rfl, rfl⟩

/-- C10.  Two-variation accumulation: `main` runs the suite twice, storing
the first run's per-test results under the key without_finch_seed and the
second run's under with_finch_seed inside the tests object, and for every
failure type the final count equals the sum of that type's counts over the
two runs (a type absent from a run contributing zero). -/
theorem two_variation_failure_sums (run1 run2 : RunOutput) (now : Nat)
    (t : String)
    (h1 : (run1.num_failures_by_type.map Prod.fst).Nodup)
    (h2 : (run2.num_failures_by_type.map Prod.fst).Nodup) :
    getKey (mainResultsDict run1 run2 now) "tests" =
      some (JVal.obj [("without_finch_seed", run1.tests),
        ("with_finch_seed", run2.tests)])
    ∧ getKey (mainResultsDict run1 run2 now) "num_failures_by_type" =
        some (JVal.obj (finalFailureCounts run1 run2))
    ∧ getCountD (finalFailureCounts run1 run2) t =
        (getKey run1.num_failures_by_type t).getD 0 +
        (getKey run2.num_failures_by_type t).getD 0 := by
  refine ⟨rfl, rfl, ?_⟩
  unfold finalFailureCounts
  rw [getCountD_foldl run2.num_failures_by_type _ t h2,
    getCountD_foldl run1.num_failures_by_type _ t h1]
  simp [getCountD, getKey]

/-- Witness for C10 at concrete run outputs: FAIL occurs twice in the first
run and three times in the second, summing to five. -/
theorem two_variation_failure_sums_witness :
    getKey (mainResultsDict runOut1 runOut2 1700000000) "tests" =
      some (JVal.obj [("without_finch_seed", runOut1.tests),
        ("with_finch_seed", runOut2.tests)])
    ∧ getKey (mainResultsDict runOut1 runOut2 1700000000)
        "num_failures_by_type" =
        some (JVal.obj (finalFailureCounts runOut1 runOut2))
    ∧ getCountD (finalFailureCounts runOut1 runOut2) "FAIL" =
        (getKey runOut1.num_failures_by_type "FAIL").getD 0 +
        (getKey runOut2.num_failures_by_type "FAIL").getD 0 :=
  two_variation_failure_sums runOut1 runOut2 1700000000 "FAIL" (by decide)
    (by decide)

/-- Sanity check: the planner reproduces the `test_all_healthy_shards`
expectation exactly. -/
theorem planStatic_healthy_eval :
    planStatic botsHealthy 3 prevHealthy =
      Except.ok [(0, "build3"), (1, "build4"), (2, "build5")] := rfl

/-- Sanity check: dynamic mode reproduces the `test_dynamic_sharding`
expectation exactly. -/
theorem planDynamic_eval :
    planDynamic botsDynamic prevGarbage =
      Except.ok [(0, "build1"), (1, "build2"), (2, "build3"),
        (3, "build4"), (4, "build5")] := rfl
